import Mathlib

/-!
Shallow embedding of `extract_midi.py` (class `SynthesiaExtractor`):
the keyboard geometry model (`__init__` / `_build_note_positions`),
the illumination classifier (`is_key_lit`), and the per-key debounce
state machine of `extract`, together with theorems checking the
natural-language specification against these definitions.

Times and pixel positions are modelled as rationals; Python `int()`
truncation is `pyInt`; the Python dict `note_positions` is an
association list with insert-or-overwrite semantics, preserving
insertion order and `len`.
-/

/-- Hand tag carried by a lit verdict: 'left' (green) or 'right' (blue). -/
inductive Hand
  | left
  | right
deriving DecidableEq, Repr

/-- One `note_positions` dict value: `{'x': int, 'is_black': bool}`. -/
structure KeyInfo where
  x : ℤ
  is_black : Bool
deriving DecidableEq, Repr

/-- Python dict lookup `d[k]` / `k in d` on an association list. -/
def dictGet {α : Type} (k : ℕ) (d : List (ℕ × α)) : Option α :=
  (d.find? (fun p => p.1 == k)).map Prod.snd

/-- Python dict assignment `d[k] = v`: overwrite in place if the key is
present, else append (insertion order preserved, as for a Python dict). -/
def dictInsert {α : Type} (k : ℕ) (v : α) (d : List (ℕ × α)) : List (ℕ × α) :=
  if d.any (fun p => p.1 == k) then
    d.map (fun p => if p.1 == k then (k, v) else p)
  else
    d ++ [(k, v)]

/-- Insert into a sorted list (ascending). -/
def insortNat (x : ℕ) : List ℕ → List ℕ
  | [] => [x]
  | y :: ys => if x ≤ y then x :: y :: ys else y :: insortNat x ys

/-- Python `sorted` on a list of naturals. -/
def sortNat (l : List ℕ) : List ℕ := l.foldr insortNat []

/-- Python `int()` applied to a float: truncation toward zero. -/
def pyInt (q : ℚ) : ℤ := if q < 0 then ⌈q⌉ else ⌊q⌋

/-- `self.release_debounce_frames = 2`: consecutive unlit frames before
releasing a pressed key. -/
def release_debounce_frames : ℕ := 2

/-- `octave_widths = [edge[c+1] - edge[c] ...]; octave_width = np.mean(octave_widths)`.
With fewer than two calibration points the delta list is empty and
`np.mean([])` is NaN, which later poisons `int()` (a `ValueError`), so the
construction fails; this is modelled as `none`. -/
def octaveWidthOf (cpos : List (ℕ × ℤ)) : Option ℚ :=
  let c_notes := sortNat (cpos.map Prod.fst)
  let widths := List.zipWith
    (fun a b => ((dictGet b cpos).getD 0 - (dictGet a cpos).getD 0 : ℤ))
    c_notes c_notes.tail
  match widths with
  | [] => none
  | w :: ws => some ((((w :: ws).map (fun z => (z : ℚ))).sum) / ((w :: ws).length : ℚ))

/-- `white_positions = [0, 2, 4, 5, 7, 9, 11]`. -/
def whiteSemis : List ℕ := [0, 2, 4, 5, 7, 9, 11]

/-- `black_info = [(1, 0, 1), (3, 1, 2), (6, 3, 4), (8, 4, 5), (10, 5, 6)]`:
(semitone, left white index, right white index). -/
def blackInfo : List (ℕ × ℕ × ℕ) := [(1, 0, 1), (3, 1, 2), (6, 3, 4), (8, 4, 5), (10, 5, 6)]

/-- One iteration of the outer loop of `_build_note_positions`: the 7 white
and 5 black keys of the octave starting at calibrated C `c_midi`. -/
def addOctave (w : ℚ) (c_midi : ℕ) (c_left : ℤ) (d : List (ℕ × KeyInfo)) :
    List (ℕ × KeyInfo) :=
  let d1 := whiteSemis.enum.foldl
    (fun acc p =>
      dictInsert (c_midi + p.2)
        ⟨pyInt ((c_left : ℚ) + ((p.1 : ℚ) + 1/2) * w), false⟩ acc)
    d
  blackInfo.foldl
    (fun acc info =>
      dictInsert (c_midi + info.1)
        ⟨pyInt ((c_left : ℚ) + ((info.2.1 : ℚ) + 1) * w), true⟩ acc)
    d1

/-- `_build_note_positions`: octaves for every calibrated C in insertion
order, then the extension above C7 (`c7_left = self.c_left_edge[96]`, a
`KeyError` — modelled `none` — when pitch 96 is not calibrated),
adding white keys `96 + s` for `s` in `whiteSemis` when `midi <= 108`. -/
def buildNotePositions (cpos : List (ℕ × ℤ)) (w : ℚ) :
    Option (List (ℕ × KeyInfo)) :=
  let base := cpos.foldl (fun acc p => addOctave w p.1 p.2 acc) []
  match dictGet 96 cpos with
  | none => none
  | some c7_left =>
    some (whiteSemis.enum.foldl
      (fun acc p =>
        if 96 + p.2 ≤ 108 then
          dictInsert (96 + p.2)
            ⟨pyInt ((c7_left : ℚ) + ((p.1 : ℚ) + 1/2) * w), false⟩ acc
        else acc)
      base)

/-- The fields of `SynthesiaExtractor` used by the core pipeline. -/
structure Extractor where
  width : ℕ
  height : ℕ
  key_sample_y : ℤ
  sample_width : ℕ
  sample_height : ℕ
  lit_threshold : ℚ
  octave_width : ℚ
  white_key_width : ℚ
  note_positions : List (ℕ × KeyInfo)
deriving DecidableEq, Repr

/-- The built-in default calibration `{24: 51, 36: 224, ..., 96: 1086}`
(C left edges for a 1276x720 video). -/
def defaultCPositions : List (ℕ × ℤ) :=
  [(24, 51), (36, 224), (48, 396), (60, 567), (72, 742), (84, 914), (96, 1086)]

/-- `SynthesiaExtractor.__init__` for a given video size and `key_y`.
`self.c_left_edge = c_positions or {default}`: a `None` or empty mapping
falls back to the default (Python truthiness of the dict). Construction
fails (`none`) when the octave-width mean is undefined (fewer than two
calibration points; NaN then raises in `int()`) or pitch 96 is missing
(`KeyError` in the extension loop). -/
def buildExtractor (width height : ℕ) (key_y : ℤ) (c_positions : List (ℕ × ℤ)) :
    Option Extractor :=
  let cpos := if c_positions.isEmpty then defaultCPositions else c_positions
  match octaveWidthOf cpos with
  | none => none
  | some ow =>
    match buildNotePositions cpos (ow / 7) with
    | none => none
    | some table => some ⟨width, height, key_y, 7, 7, 3/10, ow, ow / 7, table⟩

/-- The extractor built with all defaults (1276x720 video, `key_y=500`,
no calibration argument). -/
def defaultExt : Extractor :=
  (buildExtractor 1276 720 500 []).getD ⟨0, 0, 0, 7, 7, 0, 0, 0, []⟩

/-- `green_mask = (h >= 35) & (h <= 85) & (s > 50) & (v > 50)`. -/
def greenMask (h s v : ℕ) : Bool :=
  decide (35 ≤ h ∧ h ≤ 85 ∧ 50 < s ∧ 50 < v)

/-- `blue_mask = (h >= 85) & (h <= 135) & (s > 50) & (v > 50)`. -/
def blueMask (h s v : ℕ) : Bool :=
  decide (85 ≤ h ∧ h ≤ 135 ∧ 50 < s ∧ 50 < v)

/-- `SynthesiaExtractor.is_key_lit`. The frame is given already in HSV
form as a pixel function `(row, col) -> (h, s, v)`; `cv2.cvtColor` is an
external per-pixel conversion, so converting the extracted region equals
restricting the converted frame. Returns `(is_lit, hand)`. -/
def is_key_lit (ext : Extractor) (hsv : ℕ → ℕ → ℕ × ℕ × ℕ) (midi : ℕ) :
    Bool × Option Hand :=
  match dictGet midi ext.note_positions with
  | none => (false, none)
  | some info =>
    let cx : ℤ := if info.is_black then info.x else info.x - 3
    let cy : ℤ := if info.is_black then ext.key_sample_y + 15 else ext.key_sample_y
    let half_w : ℤ := ((ext.sample_width / 2 : ℕ) : ℤ)
    let half_h : ℤ := ((ext.sample_height / 2 : ℕ) : ℤ)
    let x1 : ℤ := max 0 (cx - half_w)
    let x2 : ℤ := min (ext.width : ℤ) (cx + half_w + 1)
    let y1 : ℤ := max 0 (cy - half_h)
    let y2 : ℤ := min (ext.height : ℤ) (cy + half_h + 1)
    if x2 ≤ x1 ∨ y2 ≤ y1 then (false, none)
    else
      let rows := (y2 - y1).toNat
      let cols := (x2 - x1).toNat
      let pix := (List.range rows).flatMap
        (fun r => (List.range cols).map (fun c => hsv (y1.toNat + r) (x1.toNat + c)))
      let total := rows * cols
      let gCount := pix.countP (fun p => greenMask p.1 p.2.1 p.2.2)
      let bCount := pix.countP (fun p => blueMask p.1 p.2.1 p.2.2)
      let gFrac : ℚ := (gCount : ℚ) / (total : ℚ)
      let bFrac : ℚ := (bCount : ℚ) / (total : ℚ)
      if ext.lit_threshold ≤ gFrac then (true, some Hand.left)
      else if ext.lit_threshold ≤ bFrac then (true, some Hand.right)
      else (false, none)

/-- One entry of `note_state`: `{'active', 'start_time', 'hand', 'unlit_count'}`. -/
structure KeyState where
  active : Bool
  start_time : Option ℚ
  hand : Option Hand
  unlit_count : ℕ
deriving DecidableEq, Repr

/-- The state installed on first observation of a key:
`{'active': False, 'start_time': None, 'hand': None, 'unlit_count': 999}`. -/
def initState : KeyState := ⟨false, none, none, 999⟩

/-- An element of `all_notes` restricted to one key:
`{'start': ..., 'duration': ..., 'hand': ...}`. -/
structure NoteEv where
  start : ℚ
  duration : ℚ
  hand : Option Hand
deriving DecidableEq, Repr

/-- The per-key body of the frame loop in `extract`, for one verdict
`v` (`none` = unlit, `some h` = lit for hand `h`) at frame time `t`.
Returns the updated state and the note appended to `all_notes`, if any.
The inner `none` start-time branch is unreachable from `initState`
(`active` is only set together with `start_time`; Python would raise
there) and emits nothing. -/
def step (fps minDur : ℚ) (s : KeyState) (t : ℚ) (v : Option Hand) :
    KeyState × Option NoteEv :=
  match v with
  | some h =>
    if s.active then (⟨true, s.start_time, s.hand, 0⟩, none)
    else (⟨true, some t, some h, 0⟩, none)
  | none =>
    let c := s.unlit_count + 1
    if s.active ∧ release_debounce_frames ≤ c then
      match s.start_time with
      | some st =>
        let endT := t - ((release_debounce_frames : ℚ) - 1) / fps
        let dur := endT - st
        (⟨false, none, s.hand, c⟩,
          if minDur ≤ dur then some ⟨st, dur, s.hand⟩ else none)
      | none => (⟨false, none, s.hand, c⟩, none)
    else (⟨s.active, s.start_time, s.hand, c⟩, none)

/-- The frame loop of `extract` for one key: verdicts `vs` for frames
numbered from `n`, each at time `frame_num / fps`. Returns the final
state and the emitted notes in order. -/
def processVerdicts (fps minDur : ℚ) : KeyState → ℕ → List (Option Hand) →
    KeyState × List NoteEv
  | s, _, [] => (s, [])
  | s, n, v :: vs =>
    let r := step fps minDur s ((n : ℚ) / fps) v
    let rest := processVerdicts fps minDur r.1 (n + 1) vs
    (rest.1, r.2.toList ++ rest.2)

/-- The "Close remaining notes" block of `extract`:
`final_time = self.total_frames / self.fps`; a still-active key with a
recorded start time yields one note of duration `final_time - start_time`
when that is at least `min_duration`. -/
def finalize (fps minDur : ℚ) (totalFrames : ℕ) (s : KeyState) : Option NoteEv :=
  if s.active then
    match s.start_time with
    | some st =>
      let dur := (totalFrames : ℚ) / fps - st
      if minDur ≤ dur then some ⟨st, dur, s.hand⟩ else none
    | none => none
  else none

/-- `extract` restricted to one key: the frame loop from `startFrame`
followed by end-of-stream finalization against `totalFrames`. -/
def extractKey (fps minDur : ℚ) (startFrame totalFrames : ℕ)
    (vs : List (Option Hand)) : List NoteEv :=
  let r := processVerdicts fps minDur initState startFrame vs
  r.2 ++ (finalize fps minDur totalFrames r.1).toList

/-- `start_frame = int(skip_seconds * self.fps)`. -/
def startFrameOf (skip fps : ℚ) : ℕ := (pyInt (skip * fps)).toNat

/-- `extract` restricted to one key, with the starting frame derived from
the skip offset as in the source. -/
def extractKeySkip (fps minDur skip : ℚ) (totalFrames : ℕ)
    (vs : List (Option Hand)) : List NoteEv :=
  extractKey fps minDur (startFrameOf skip fps) totalFrames vs

/-- Checks that every black key of a geometry table sits strictly between
its two immediate semitone neighbours and that those neighbours are white. -/
def blackBetweenOK (d : List (ℕ × KeyInfo)) : Bool :=
  d.all (fun p =>
    !p.2.is_black ||
      (match dictGet (p.1 - 1) d, dictGet (p.1 + 1) d with
       | some l, some r =>
         (!l.is_black) && (!r.is_black) &&
           decide (l.x < p.2.x) && decide (p.2.x < r.x)
       | _, _ => false))

/-- Invariant threaded through a run: whenever the key is pressed, a start
time is recorded and it is at least the bound `b`. -/
def stepInv (b : ℚ) (s : KeyState) : Prop :=
  s.active = true → ∃ st, s.start_time = some st ∧ b ≤ st

attribute [local semireducible] Rat.mul Rat.inv Rat.add Rat.sub

set_option maxRecDepth 10000

/-- C1 (code_bug evidence): with the default calibration the geometry
table has 84 entries, the mapped pitches are exactly 24..107 — so 21, 22,
23 and 108 of the 88-key range 21..108 receive no entry — and each mapped
pitch occurs exactly once. The docstring of `_build_note_positions`
promises "all 88 piano keys". -/
theorem build_table_has_84_keys :
    ((buildExtractor 1276 720 500 []).map fun e => e.note_positions.length) = some 84 ∧
      ((buildExtractor 1276 720 500 []).map fun e =>
          (List.range 128).filter fun p => (dictGet p e.note_positions).isSome) =
        some ((List.range 128).filter fun p => decide (24 ≤ p ∧ p ≤ 107)) ∧
      ((buildExtractor 1276 720 500 []).map fun e =>
          decide (e.note_positions.map Prod.fst).Nodup) = some true := by
  refine ⟨by decide, by decide, by decide⟩

/-- C3: the verdict stream [lit, lit, lit, unlit, unlit, unlit] at 30 fps
starting at frame 0 (t = 0) emits exactly one note, with start_time 0 and
end time (4/30) − (2−1)/30: the frame at which the unlit count reaches the
debounce threshold is frame 4, and the end is back-dated to the first
unlit frame, frame 3. -/
theorem debounce_stream_single_note :
    (processVerdicts 30 (3/100) initState 0
        [some Hand.left, some Hand.left, some Hand.left, none, none, none]).2 =
      [⟨0, 4/30 - (2 - 1)/30 - 0, some Hand.left⟩] := by
  decide

/-- C4 counterexample: a pixel with hue exactly 85 and qualifying
saturation and value (here 51, 51) IS classified blue-like by
`blue_mask = (h >= 85) & ...`, contradicting the claim that blue-like
requires hue strictly greater than 85 (and that such a pixel is not
blue-like). -/
theorem blue_mask_includes_hue_85 : blueMask 85 51 51 = true := by decide

/-- C4 amended: the blue interval is closed at 85 ([85, 135]); a pixel
with hue exactly 85 and qualifying saturation/value is both green-like
and blue-like (hue 84 is green-only), and since the green test is applied
first, a neighbourhood of such pixels still classifies as lit/left. -/
theorem hue_85_in_both_masks :
    greenMask 85 51 51 = true ∧ blueMask 85 51 51 = true ∧
      blueMask 84 51 51 = false ∧ greenMask 84 51 51 = true ∧
      is_key_lit defaultExt (fun _ _ => (85, 51, 51)) 60 = (true, some Hand.left) := by
  refine ⟨by decide, by decide, by decide, by decide, by decide⟩

/-- C5 counterexample: constructing the extractor from an EMPTY
calibration mapping (fewer than 2 reference points) does not fail: the
Python truthiness fallback `c_positions or {default}` silently substitutes
the built-in default calibration and construction succeeds. -/
theorem empty_calibration_succeeds :
    (buildExtractor 1276 720 500 []).isSome = true := by decide

/-- C5 amended: a calibration mapping with exactly one reference point
makes the construction fail (the empty octave-delta list gives a NaN mean,
which raises when converted with `int()`), while an empty mapping falls
back silently to the built-in default and succeeds. -/
theorem single_point_calibration_fails :
    (∀ k : ℕ, ∀ v : ℤ, buildExtractor 1276 720 500 [(k, v)] = none) ∧
      (buildExtractor 1276 720 500 []).isSome = true := by
  exact ⟨fun k v => rfl, by decide⟩

/-- C8: in the geometry table built from the default calibration, every
black key's x-position lies strictly between the x-positions of its two
neighbouring (semitone-adjacent) keys, and those neighbours are white. -/
theorem black_keys_between_whites :
    ((buildExtractor 1276 720 500 []).map fun e => blackBetweenOK e.note_positions) =
      some true := by
  decide

/-- C2 counterexample: a one-frame stream (frame 0 at 1 fps, lit) with
`total_frames = 1` leaves the key pressed at end of stream; the final
frame's time is 0/1 = 0, yet the force-closed note has duration 1: its end
time is `total_frames / fps = 1`, not the final frame's time, and the
claimed duration (final frame's time − start_time = 0) differs from the
emitted one. -/
theorem forced_close_not_final_frame_time :
    extractKey 1 (3/100) 0 1 [some Hand.left] = [⟨0, 1, some Hand.left⟩] ∧
      ¬ ((1 : ℚ) = (0 : ℚ) / 1 - 0) := by
  refine ⟨by decide, by decide⟩

/-- C6 counterexample: with skip = 1/2 s at 1 fps, `int(skip * fps)` is 0,
so processing starts at frame 0 (t = 0); an all-lit 3-frame stream yields
a force-closed note with start_time 0, which is strictly below the skip
offset 1/2. -/
theorem note_can_start_before_skip :
    extractKeySkip 1 (3/100) (1/2) 3 [some Hand.left, some Hand.left, some Hand.left] =
        [⟨0, 3, some Hand.left⟩] ∧
      ¬ ((1 : ℚ) / 2 ≤ 0) := by
  refine ⟨by decide, by decide⟩

theorem stepInv_init (b : ℚ) : stepInv b initState :=
  fun h => absurd h (by decide)

theorem step_pres_inv (fps minDur b t : ℚ) (s : KeyState) (v : Option Hand)
    (hbt : b ≤ t) (hs : stepInv b s) : stepInv b (step fps minDur s t v).1 := by
  cases v with
  | some h =>
    cases hab : s.active with
    | true =>
      simp only [step, hab, if_true]
      intro _
      exact hs hab
    | false =>
      simp only [step, hab, Bool.false_eq_true, if_false]
      intro _
      exact ⟨t, rfl, hbt⟩
  | none =>
    by_cases hc : (s.active = true ∧ release_debounce_frames ≤ s.unlit_count + 1)
    · cases hst : s.start_time with
      | some st =>
        simp only [step, hst, if_pos hc]
        intro h
        simp at h
      | none =>
        simp only [step, hst, if_pos hc]
        intro h
        simp at h
    · simp only [step, if_neg hc]
      intro h
      exact hs h

theorem step_note_bound (fps minDur b t : ℚ) (s : KeyState) (v : Option Hand) (n : NoteEv)
    (hs : stepInv b s) (hn : (step fps minDur s t v).2 = some n) :
    b ≤ n.start ∧ minDur ≤ n.duration := by
  cases v with
  | some h =>
    cases hab : s.active <;> simp [step, hab] at hn
  | none =>
    by_cases hc : (s.active = true ∧ release_debounce_frames ≤ s.unlit_count + 1)
    · obtain ⟨st, hsteq, hbst⟩ := hs hc.1
      by_cases hd : minDur ≤ t - ((release_debounce_frames : ℚ) - 1) / fps - st
      · simp only [step, hsteq, if_pos hc, if_pos hd] at hn
        obtain rfl := Option.some.inj hn
        exact ⟨hbst, hd⟩
      · simp only [step, hsteq, if_pos hc, if_neg hd] at hn
        exact absurd hn (by simp)
    · simp only [step, if_neg hc] at hn
      exact absurd hn (by simp)

theorem processVerdicts_inv_bound (fps minDur b : ℚ) :
    ∀ (vs : List (Option Hand)) (n : ℕ) (s : KeyState),
      (∀ m : ℕ, n ≤ m → b ≤ (m : ℚ) / fps) → stepInv b s →
      stepInv b (processVerdicts fps minDur s n vs).1 ∧
      ∀ note ∈ (processVerdicts fps minDur s n vs).2,
        b ≤ note.start ∧ minDur ≤ note.duration := by
  intro vs
  induction vs with
  | nil =>
    intro n s hm hs
    exact ⟨hs, by simp [processVerdicts]⟩
  | cons v vs ih =>
    intro n s hm hs
    have hbt : b ≤ (n : ℚ) / fps := hm n (Nat.le_refl n)
    have hs1 := step_pres_inv fps minDur b ((n : ℚ) / fps) s v hbt hs
    have hm1 : ∀ m : ℕ, n + 1 ≤ m → b ≤ (m : ℚ) / fps :=
      fun m hm' => hm m (Nat.le_of_succ_le hm')
    obtain ⟨hinv, hnotes⟩ := ih (n + 1) (step fps minDur s ((n : ℚ) / fps) v).1 hm1 hs1
    refine ⟨by simpa [processVerdicts] using hinv, ?_⟩
    intro note hmem
    simp only [processVerdicts, List.mem_append, Option.mem_toList, Option.mem_def] at hmem
    rcases hmem with h1 | h2
    · exact step_note_bound fps minDur b ((n : ℚ) / fps) s v note hs h1
    · exact hnotes note h2

theorem finalize_note_bound (fps minDur b : ℚ) (tf : ℕ) (s : KeyState) (n : NoteEv)
    (hs : stepInv b s) (hn : finalize fps minDur tf s = some n) :
    b ≤ n.start ∧ minDur ≤ n.duration := by
  by_cases ha : s.active = true
  · obtain ⟨st, hsteq, hbst⟩ := hs ha
    by_cases hd : minDur ≤ (tf : ℚ) / fps - st
    · simp only [finalize, ha, if_true, hsteq, if_pos hd] at hn
      obtain rfl := Option.some.inj hn
      exact ⟨hbst, hd⟩
    · simp only [finalize, ha, if_true, hsteq, if_neg hd] at hn
      exact absurd hn (by simp)
  · rw [Bool.not_eq_true] at ha
    simp [finalize, ha] at hn

/-- C2 amended: a key still pressed when the frame stream ends is
force-closed with end time `total_frames / fps` — one frame interval
after the final processed frame's time — i.e. with duration
`total_frames / fps - start_time`, subject to the minimum-duration
filter, and exactly one such note is appended. -/
theorem forced_close_at_stream_end (fps minDur : ℚ) (sf tf : ℕ)
    (vs : List (Option Hand)) (st : ℚ)
    (h1 : (processVerdicts fps minDur initState sf vs).1.active = true)
    (h2 : (processVerdicts fps minDur initState sf vs).1.start_time = some st) :
    (minDur ≤ (tf : ℚ) / fps - st →
        extractKey fps minDur sf tf vs =
          (processVerdicts fps minDur initState sf vs).2 ++
            [⟨st, (tf : ℚ) / fps - st,
              (processVerdicts fps minDur initState sf vs).1.hand⟩]) ∧
    ((tf : ℚ) / fps - st < minDur →
        extractKey fps minDur sf tf vs =
          (processVerdicts fps minDur initState sf vs).2) := by
  constructor
  · intro h3
    simp [extractKey, finalize, h1, h2, h3]
  · intro h3
    simp [extractKey, finalize, h1, h2, not_le.mpr h3]

/-- Witness for the amended C2 at a concrete run: one lit frame at 1 fps,
`total_frames = 1`: the forced close emits the single note
(start 0, duration 1/1 − 0). -/
theorem forced_close_at_stream_end_inst :
    extractKey 1 (3/100) 0 1 [some Hand.left] =
      (processVerdicts 1 (3/100) initState 0 [some Hand.left]).2 ++
        [⟨0, (1 : ℚ) / 1 - 0,
          (processVerdicts 1 (3/100) initState 0 [some Hand.left]).1.hand⟩] :=
  (forced_close_at_stream_end 1 (3/100) 0 1 [some Hand.left] 0
    (by decide) (by decide)).1 (by decide)

/-- C6 amended: every emitted note of a run with skip offset `skip` has
start_time at least `int(skip * fps) / fps` — the time of the first
processed frame, which equals `skip` exactly when `skip * fps` is an
integer — and duration at least `min_duration` (hence positive for the
default floor 0.03 s). -/
theorem notes_respect_skip_and_floor (fps minDur skip : ℚ) (tf : ℕ)
    (vs : List (Option Hand)) (hf : 0 < fps) :
    ∀ note ∈ extractKeySkip fps minDur skip tf vs,
      ((startFrameOf skip fps : ℕ) : ℚ) / fps ≤ note.start ∧ minDur ≤ note.duration := by
  intro note hmem
  have hm : ∀ m : ℕ, startFrameOf skip fps ≤ m →
      ((startFrameOf skip fps : ℕ) : ℚ) / fps ≤ (m : ℚ) / fps :=
    fun m hm' => (div_le_div_iff_of_pos_right hf).mpr (by exact_mod_cast hm')
  obtain ⟨hinv, hnotes⟩ := processVerdicts_inv_bound fps minDur
    (((startFrameOf skip fps : ℕ) : ℚ) / fps) vs (startFrameOf skip fps) initState hm
    (stepInv_init _)
  simp only [extractKeySkip, extractKey, List.mem_append, Option.mem_toList,
    Option.mem_def] at hmem
  rcases hmem with h1 | h2
  · exact hnotes note h1
  · exact finalize_note_bound fps minDur _ tf _ note hinv h2

/-- Witness for the amended C6: skip 0 at 1 fps, stream
[lit, lit, unlit, unlit]: the emitted note (start 0, duration 2) respects
both bounds. -/
theorem notes_respect_skip_and_floor_inst :
    ((startFrameOf 0 1 : ℕ) : ℚ) / 1 ≤ 0 ∧ (3 : ℚ) / 100 ≤ 2 :=
  notes_respect_skip_and_floor 1 (3/100) 0 4
    [some Hand.left, some Hand.left, none, none] (by norm_num)
    ⟨0, 2, some Hand.left⟩ (by decide)

/-- C7: when a pressed key's consecutive-unlit count reaches the debounce
threshold, a note is emitted precisely when the computed duration
(back-dated end time minus start time) is at least the minimum-duration
floor; a shorter press emits nothing (and in both cases the key returns
to idle). -/
theorem min_duration_gate (fps minDur t st : ℚ) (s : KeyState)
    (ha : s.active = true) (hst : s.start_time = some st)
    (hc : release_debounce_frames ≤ s.unlit_count + 1) :
    (minDur ≤ t - ((release_debounce_frames : ℚ) - 1) / fps - st →
        (step fps minDur s t none).2 =
          some ⟨st, t - ((release_debounce_frames : ℚ) - 1) / fps - st, s.hand⟩) ∧
    (t - ((release_debounce_frames : ℚ) - 1) / fps - st < minDur →
        (step fps minDur s t none).2 = none) := by
  constructor
  · intro hge
    simp [step, hst, ha, hc, hge]
  · intro hlt
    simp [step, hst, ha, hc, not_le.mpr hlt]

/-- Witness for C7: a pressed key (start 0, one unlit already seen) hit by
a second unlit frame at t = 2 s, 1 fps: duration 1 ≥ 0.03, so the note is
emitted. -/
theorem min_duration_gate_inst :
    (step 1 (3/100) ⟨true, some 0, some Hand.left, 1⟩ 2 none).2 =
      some ⟨0, 2 - ((release_debounce_frames : ℚ) - 1) / 1 - 0, some Hand.left⟩ :=
  (min_duration_gate 1 (3/100) 2 0 ⟨true, some 0, some Hand.left, 1⟩ rfl rfl
    (by decide)).1 (by decide)

/-- C9: a lit verdict on an already-pressed key resets the
consecutive-unlit count to 0 and leaves the recorded start_time and hand
unchanged, emitting nothing. -/
theorem lit_while_pressed_keeps_state (fps minDur t : ℚ) (hd : Hand) (s : KeyState)
    (ha : s.active = true) :
    step fps minDur s t (some hd) = (⟨true, s.start_time, s.hand, 0⟩, none) := by
  simp [step, ha]

/-- Witness for C9: a pressed key (start 1/2, right hand, count 5) hit by
a lit/left verdict keeps its start and hand and resets the count. -/
theorem lit_while_pressed_keeps_state_inst :
    step 1 0 ⟨true, some (1/2), some Hand.right, 5⟩ 7 (some Hand.left) =
      (⟨true, some (1/2), some Hand.right, 0⟩, none) :=
  lit_while_pressed_keeps_state 1 0 7 Hand.left ⟨true, some (1/2), some Hand.right, 5⟩ rfl

/-- C10: `is_key_lit` called with a pitch absent from the geometry table
returns the unlit verdict with no hand, for every frame. -/
theorem missing_pitch_unlit (ext : Extractor) (hsv : ℕ → ℕ → ℕ × ℕ × ℕ) (midi : ℕ)
    (h : dictGet midi ext.note_positions = none) :
    is_key_lit ext hsv midi = (false, none) := by
  simp [is_key_lit, h]

/-- Witness for C10: pitch 21 has no entry in the default table, so the
classifier returns (False, None) on it. -/
theorem missing_pitch_unlit_inst :
    is_key_lit defaultExt (fun _ _ => (0, 0, 0)) 21 = (false, none) :=
  missing_pitch_unlit defaultExt (fun _ _ => (0, 0, 0)) 21 (by decide)
